import Mathlib

/-!
Verification of the two automation scripts of this repository:
`scripts/update_readme_stats.py` (GitHub statistics aggregation, number
formatting and README patching) and `scripts/set_github_policies.py`
(repository policy setting and fork renaming).

The Python code is shallowly embedded: Python strings become `List Char`
(or `String` where no structural reasoning is needed), JSON payloads
become structures, the GitHub API client becomes an explicit sequence
of page responses, and functions that perform HTTP side effects return
the list of calls they would issue.
-/

namespace Spec2Proof

/-! ## Constants of update_readme_stats.py -/

def NOTABLE_LIMIT : Nat := 10

def NOTABLE_MIN_STARS : Nat := 100

def NOTABLE_MAX_PAGES : Nat := 5

def MILLION : Nat := 1000000

def THOUSAND : Nat := 1000

/-! ## fmt (update_readme_stats.py, lines 195-202)

Python computes `n / MILLION` (true division producing an IEEE binary64
float, i.e. the real quotient rounded to 53 significant bits, round to
nearest, ties to even) and renders it with `:.1f` (the float's exact
value rounded to one decimal digit; CPython's float formatting is
correctly rounded, and a dyadic rational is never an exact decimal tie,
so this is plain rounding to the nearest tenth).  We model both rounding
steps exactly over the rationals; overflow to infinity (quotients at or
above 2^1024, far beyond any GitHub statistic) is not modelled.
-/

/-- Nearest integer to `a / b` (for `b > 0`), ties to even. -/
def roundHalfEven (a b : Nat) : Nat :=
  let q := a / b
  let r := a % b
  if 2 * r < b then q
  else if b < 2 * r then q + 1
  else if q % 2 = 0 then q else q + 1

/-- Fuel-driven floor of the base-2 logarithm (`log2floorAux fuel n`
computes floor (log2 n) for `1 ≤ n` whenever `n < 2 ^ fuel`). -/
def log2floorAux : Nat → Nat → Nat
  | 0, _ => 0
  | fuel + 1, n => if n < 2 then 0 else log2floorAux fuel (n / 2) + 1

/-- Floor of the base-2 logarithm of a natural number (0 for inputs 0, 1). -/
def log2floor (n : Nat) : Nat := log2floorAux n n

/-- The IEEE binary64 value of the quotient `num / den` (for
`1 ≤ den ≤ num`), returned as a pair `(a, b)` representing the dyadic
rational `a / b` with `b` a power of two: the mantissa is the real
quotient scaled to 53 bits and rounded to nearest, ties to even. -/
def doubleOfDiv (num den : Nat) : Nat × Nat :=
  let k := log2floor (num / den)
  if k ≤ 52 then (roundHalfEven (num * 2 ^ (52 - k)) den, 2 ^ (52 - k))
  else (roundHalfEven num (den * 2 ^ (k - 52)) * 2 ^ (k - 52), 1)

/-- Render the nonnegative dyadic rational `a / b` with exactly one
decimal digit, as CPython's `:.1f` does for a nonnegative float. -/
def formatFixed1 (a b : Nat) : String :=
  let t := roundHalfEven (10 * a) b
  toString (t / 10) ++ "." ++ toString (t % 10)

/-- The string CPython produces for `f-string {num / den:.1f}` on
nonnegative integers `num`, `den` (den positive, quotient at least 1). -/
def pyDivFixed1 (num den : Nat) : String :=
  let p := doubleOfDiv num den
  formatFixed1 p.1 p.2

/-- `fmt` of update_readme_stats.py: `n / MILLION` with one decimal and
an `M` suffix for `n ≥ MILLION`, `n / THOUSAND` with one decimal and a
`k` suffix for `n ≥ THOUSAND`, and `str(n)` otherwise. -/
def fmt (n : Nat) : String :=
  if n ≥ MILLION then pyDivFixed1 n MILLION ++ "M"
  else if n ≥ THOUSAND then pyDivFixed1 n THOUSAND ++ "k"
  else toString n

/-! ## set_github_policies.py: fork renaming (lines 86-101)

`rename_repository` issues one PATCH call; we record renames as
`(old name, new name)` pairs.  `set_fork_name` matches on
`repository.startswith("fork-")` and either logs a warning (no call)
or issues exactly one rename to `"fork-" + repository`.
-/

def forkNamePrefix : List Char := "fork-".toList

/-- The list of rename calls `(repository, new name)` issued by
`set_fork_name` for one forked repository. -/
def set_fork_name (repository : List Char) : List (List Char × List Char) :=
  match forkNamePrefix.isPrefixOf repository with
  | true => []
  | false => [(repository, forkNamePrefix ++ repository)]

/-! ## fetch_stars (update_readme_stats.py, lines 54-77)

The GraphQL client is modelled by the finite sequence of page responses
it would return; one page is requested per loop iteration, the cursor
threading being captured by consuming the sequence in order.  A page
carries the `stargazerCount` of each repository node and the
`hasNextPage` flag of its `pageInfo`.
-/

structure StarPage where
  counts : List Nat
  hasNextPage : Bool
deriving DecidableEq

/-- Total star count accumulated by the `while True` loop of
`fetch_stars`: add the page's star counts, stop when `hasNextPage` is
false, otherwise continue with the next page. -/
def fetch_stars : List StarPage → Nat
  | [] => 0
  | p :: rest => p.counts.sum + (if p.hasNextPage then fetch_stars rest else 0)

/-- Number of page requests (calls to `graphql`) issued by the
`fetch_stars` loop on the given sequence of page responses. -/
def fetch_stars_requests : List StarPage → Nat
  | [] => 0
  | p :: rest => 1 + (if p.hasNextPage then fetch_stars_requests rest else 0)

/-! ## fetch_notable_contributions (update_readme_stats.py, lines 134-192)

The GraphQL client is modelled by the function `pageAt` from the request
ordinal to the returned page of merged pull requests (newest first); the
opaque pagination cursor is omitted since it only threads each
response's `endCursor` into the next request.  Each pull-request node
carries the fields of its target repository that the script reads.
-/

structure PullRepo where
  nameWithOwner : List Char
  url : List Char
  stargazerCount : Nat
  ownerLogin : List Char
deriving DecidableEq

structure PRPage where
  nodes : List PullRepo
  hasNextPage : Bool

structure Contribution where
  repo : List Char
  repo_url : List Char
  stars : Nat
deriving DecidableEq

/-- Python's case folding for the `.lower()` comparison of owner login
and username (ASCII-adequate model of `str.lower`). -/
def lowerEq (a b : List Char) : Bool :=
  a.map Char.toLower == b.map Char.toLower

/-- The contribution entry built from a surviving pull-request node. -/
def mkContribution (r : PullRepo) : Contribution :=
  ⟨r.nameWithOwner, r.url, r.stargazerCount⟩

/-- The inner `for pr in prs["nodes"]` loop: skip self-owned target
repositories, skip those below `NOTABLE_MIN_STARS`, skip names already
in `seen_repos`, and otherwise record the name and append the
contribution. -/
def processNodes (username : List Char) :
    List PullRepo → List (List Char) → List Contribution →
    List (List Char) × List Contribution
  | [], seen, acc => (seen, acc)
  | repo :: rest, seen, acc =>
    if lowerEq repo.ownerLogin username then processNodes username rest seen acc
    else if repo.stargazerCount < NOTABLE_MIN_STARS then
      processNodes username rest seen acc
    else if repo.nameWithOwner ∈ seen then processNodes username rest seen acc
    else
      processNodes username rest (seen ++ [repo.nameWithOwner])
        (acc ++ [mkContribution repo])

/-- The `for _ in range(NOTABLE_MAX_PAGES)` pagination loop: request a
page, process its nodes, stop when `hasNextPage` is false. -/
def notableLoop (pageAt : Nat → PRPage) (username : List Char) :
    Nat → Nat → List (List Char) → List Contribution → List Contribution
  | 0, _, _, acc => acc
  | fuel + 1, i, seen, acc =>
    let page := pageAt i
    let r := processNodes username page.nodes seen acc
    if page.hasNextPage then notableLoop pageAt username fuel (i + 1) r.1 r.2
    else r.2

/-- Insert a contribution into a descending-sorted list, before the
first entry with at most as many stars (so earlier entries win ties). -/
def insertDesc (x : Contribution) : List Contribution → List Contribution
  | [] => [x]
  | y :: ys => if x.stars < y.stars then y :: insertDesc x ys else x :: y :: ys

/-- Stable sort by star count descending.  Python's
`list.sort(key=..., reverse=True)` is a stable sort, and the output of
a stable sort under a total key order is unique, so stable insertion
sort models it exactly. -/
def sortByStarsDesc : List Contribution → List Contribution
  | [] => []
  | x :: xs => insertDesc x (sortByStarsDesc xs)

/-- `fetch_notable_contributions`: run the bounded pagination loop, then
sort the collected contributions by stars descending and keep the top
`NOTABLE_LIMIT`. -/
def fetch_notable_contributions (pageAt : Nat → PRPage) (username : List Char) :
    List Contribution :=
  (sortByStarsDesc (notableLoop pageAt username NOTABLE_MAX_PAGES 0 [] [])).take
    NOTABLE_LIMIT

/-- Number of page requests (calls to `graphql`) issued by the
`fetch_notable_contributions` loop, starting at request ordinal `i` with
the given fuel. -/
def notableRequestsAux (pageAt : Nat → PRPage) : Nat → Nat → Nat
  | 0, _ => 0
  | fuel + 1, i => 1 + (if (pageAt i).hasNextPage then notableRequestsAux pageAt fuel (i + 1) else 0)

/-- Number of page requests issued by `fetch_notable_contributions`. -/
def notableRequests (pageAt : Nat → PRPage) : Nat :=
  notableRequestsAux pageAt NOTABLE_MAX_PAGES 0

/-! Specification-side pipeline, following the spec's words: flatten the
consumed pages, keep entries whose target repository is not self-owned
and has at least the minimum star count, drop repeated repository names
keeping the first occurrence, sort by stars descending, truncate. -/

/-- The filter of the spec: the target repository survives when it is
not owned by the account itself and meets the star threshold. -/
def keepRepo (username : List Char) (r : PullRepo) : Bool :=
  !(lowerEq r.ownerLogin username) && decide (NOTABLE_MIN_STARS ≤ r.stargazerCount)

/-- Deduplication by repository name, first occurrence wins, with an
initial set of already-recorded names. -/
def dedupFrom : List (List Char) → List PullRepo → List PullRepo
  | _, [] => []
  | seen, r :: rest =>
    if r.nameWithOwner ∈ seen then dedupFrom seen rest
    else r :: dedupFrom (seen ++ [r.nameWithOwner]) rest

/-- The pull-request nodes of the pages the bounded loop consumes,
starting at request ordinal `i` with the given fuel. -/
def consumedNodes (pageAt : Nat → PRPage) : Nat → Nat → List PullRepo
  | 0, _ => []
  | fuel + 1, i =>
    (pageAt i).nodes ++
      (if (pageAt i).hasNextPage then consumedNodes pageAt fuel (i + 1) else [])

/-- The notable-contribution list as the spec describes it. -/
def specNotable (pageAt : Nat → PRPage) (username : List Char) : List Contribution :=
  (sortByStarsDesc
      ((dedupFrom []
          ((consumedNodes pageAt NOTABLE_MAX_PAGES 0).filter
            (keepRepo username))).map mkContribution)).take NOTABLE_LIMIT

/-! ## update_readme (update_readme_stats.py, lines 235-258)

The README content is a `List Char`.  Each of the three `re.sub` calls
uses the pattern `start + ".*?" + end` with `re.DOTALL` and literal
marker comments: the leftmost match starts at the first occurrence of
the start marker and ends at the earliest following occurrence of the
end marker (non-greedy `.*?`, newlines included), the whole span
(markers inclusive) is replaced by the new fragment wrapped in the same
markers, and scanning continues after the replaced span.  The
replacement is taken literally (the script's fragments contain no
backslash escapes, which `re.sub` would otherwise interpret).
-/

/-- Split a string at the first occurrence of `pat`, scanning left to
right: `some (before, after)` with the input equal to
`before ++ pat ++ after`, or `none` when `pat` does not occur. -/
def splitAtSub (pat : List Char) : List Char → Option (List Char × List Char)
  | [] => if pat = [] then some ([], []) else none
  | c :: rest =>
    if pat.isPrefixOf (c :: rest) then some ([], (c :: rest).drop pat.length)
    else (splitAtSub pat rest).map (fun p => (c :: p.1, p.2))

/-- Whether `pat` occurs as a contiguous substring. -/
def containsSub (pat : List Char) : List Char → Bool
  | [] => pat.isEmpty
  | c :: rest => pat.isPrefixOf (c :: rest) || containsSub pat rest

/-- Model of `re.sub(sm + ".*?" + em, repl, s, flags=re.DOTALL)` for
literal non-empty marker strings `sm`, `em`: replace every
leftmost-then-shortest span from an `sm` to the next `em` by `repl`.
The length guard makes the recursion obviously terminating; its `else`
branch is unreachable whenever `sm` is non-empty. -/
def reSubNG (sm em repl : List Char) (s : List Char) : List Char :=
  match splitAtSub sm s with
  | none => s
  | some (pre, rest) =>
    match splitAtSub em rest with
    | none => s
    | some (_, post) =>
      if _h : post.length < s.length then pre ++ repl ++ reSubNG sm em repl post
      else pre ++ repl ++ post
termination_by s.length
decreasing_by exact _h

def statsStartMarker : List Char := "<!-- STATS:START -->".toList

def statsEndMarker : List Char := "<!-- STATS:END -->".toList

def notableStartMarker : List Char := "<!-- NOTABLE:START -->".toList

def notableEndMarker : List Char := "<!-- NOTABLE:END -->".toList

def updatedStartMarker : List Char := "<!-- UPDATED:START -->".toList

def updatedEndMarker : List Char := "<!-- UPDATED:END -->".toList

/-- The replacement `re.sub` receives: the fragment wrapped in the same
marker pair, with the newlines of the f-string template. -/
def wrapMarkers (sm em frag : List Char) : List Char :=
  sm ++ ['\n'] ++ frag ++ ['\n'] ++ em

/-- `update_readme` on the in-memory README content: the three `re.sub`
calls applied in source order (STATS, then NOTABLE, then UPDATED). -/
def update_readme (content stats_md notable_md updated_md : List Char) : List Char :=
  reSubNG updatedStartMarker updatedEndMarker
    (wrapMarkers updatedStartMarker updatedEndMarker updated_md)
    (reSubNG notableStartMarker notableEndMarker
      (wrapMarkers notableStartMarker notableEndMarker notable_md)
      (reSubNG statsStartMarker statsEndMarker
        (wrapMarkers statsStartMarker statsEndMarker stats_md) content))

/-! ## graphql (update_readme_stats.py, lines 43-51)

A GraphQL HTTP response is modelled by its status code and parsed JSON
body, the body by its optional top-level `errors` and `data` fields.
`response.raise_for_status()` raises for any non-2xx status
(httpx's `is_success`); a present `errors` field raises `RuntimeError`;
otherwise the subscript `data["data"]` returns the field's value, or
raises `KeyError` when the body has no `data` field.  Errors become
`Except.error`.
-/

structure GraphQLResponse (α : Type) where
  status : Nat
  errors : Option (List String)
  data : Option α

/-- httpx's `is_success`: a 2xx status code. -/
def is_success (status : Nat) : Bool := decide (200 ≤ status ∧ status < 300)

/-- The `graphql` helper: raise on non-success status, raise on a body
with an `errors` field, otherwise return the body's `data` field
(raising when it is absent). -/
def graphql {α : Type} (r : GraphQLResponse α) : Except String α :=
  if is_success r.status = false then Except.error "HTTPStatusError"
  else if r.errors.isSome then Except.error "GraphQL errors"
  else
    match r.data with
    | some d => Except.ok d
    | none => Except.error "KeyError"

/-- A list is a prefix (in the `isPrefixOf` sense) of itself followed by
anything. -/
theorem isPrefixOf_append_self (l r : List Char) : l.isPrefixOf (l ++ r) = true := by
  induction l with
  | nil => simp [List.isPrefixOf]
  | cons c cs ih => simp [List.isPrefixOf, ih]

/-! Lemmas about first-occurrence splitting and marker substitution. -/

/-- A non-empty pattern that is a prefix of a string occurs in it. -/
theorem containsSub_of_isPrefixOf {pat s : List Char} (hne : pat ≠ [])
    (h : pat.isPrefixOf s = true) : containsSub pat s = true := by
  cases s with
  | nil =>
    cases pat with
    | nil => exact absurd rfl hne
    | cons p ps => simp [List.isPrefixOf] at h
  | cons c rest => simp [containsSub, h]

/-- A pattern that does not occur is never split on. -/
theorem splitAtSub_none_of_not_contains {pat s : List Char}
    (h : containsSub pat s = false) : splitAtSub pat s = none := by
  induction s with
  | nil =>
    simp [containsSub] at h
    simp [splitAtSub, h]
  | cons c rest ih =>
    simp [containsSub] at h
    simp [splitAtSub, h.1, ih h.2]

/-- Splitting at a pattern placed after a prefix free of earlier
occurrences finds exactly that placement. -/
theorem splitAtSub_exact (pat : List Char) (hne : pat ≠ []) :
    ∀ (b a : List Char), containsSub pat (b ++ pat.dropLast) = false →
      splitAtSub pat (b ++ pat ++ a) = some (b, a) := by
  intro b
  induction b with
  | nil =>
    intro a _h
    cases pat with
    | nil => exact absurd rfl hne
    | cons p ps =>
      have hpre : (p :: ps).isPrefixOf (p :: (ps ++ a)) = true :=
        isPrefixOf_append_self (p :: ps) a
      simp [splitAtSub, hpre, List.drop_left]
  | cons c b' ih =>
    intro a h
    rw [List.cons_append] at h
    show splitAtSub pat (c :: (b' ++ pat ++ a)) = some (c :: b', a)
    have hnotpfx : ¬ (pat <+: c :: (b' ++ pat ++ a)) := by
      intro hpfx
      have hinner : b' ++ pat.dropLast <+: b' ++ pat ++ a := by
        have hsplit : pat.dropLast ++ [pat.getLast hne] = pat :=
          List.dropLast_append_getLast hne
        refine ⟨[pat.getLast hne] ++ a, ?_⟩
        rw [show b' ++ pat.dropLast ++ ([pat.getLast hne] ++ a) =
            b' ++ (pat.dropLast ++ [pat.getLast hne]) ++ a from by
          simp [List.append_assoc], hsplit]
      have ht : c :: (b' ++ pat.dropLast) <+: c :: (b' ++ pat ++ a) :=
        List.cons_prefix_cons.mpr ⟨rfl, hinner⟩
      have hlen : pat.length ≤ (c :: (b' ++ pat.dropLast)).length := by
        have h0 : 0 < pat.length := List.length_pos.mpr hne
        simp [List.length_dropLast]
        omega
      have hpfx2 : pat <+: c :: (b' ++ pat.dropLast) :=
        List.prefix_of_prefix_length_le hpfx ht hlen
      have hc : containsSub pat (c :: (b' ++ pat.dropLast)) = true :=
        containsSub_of_isPrefixOf hne (List.isPrefixOf_iff_prefix.mpr hpfx2)
      rw [hc] at h
      cases h
    have hnp : pat.isPrefixOf (c :: (b' ++ pat ++ a)) = false := by
      cases hval : pat.isPrefixOf (c :: (b' ++ pat ++ a)) with
      | false => rfl
      | true => exact absurd (List.isPrefixOf_iff_prefix.mp hval) hnotpfx
    have h' : containsSub pat (b' ++ pat.dropLast) = false := by
      simp [containsSub] at h
      exact h.2
    have estep : splitAtSub pat (c :: (b' ++ pat ++ a)) =
        (splitAtSub pat (b' ++ pat ++ a)).map (fun p => (c :: p.1, p.2)) := by
      simp only [splitAtSub, hnp, Bool.false_eq_true, if_false]
    rw [estep, ih a h']
    rfl

/-- Unfolding: no start marker, no substitution. -/
theorem reSubNG_none (sm em repl s : List Char) (h : splitAtSub sm s = none) :
    reSubNG sm em repl s = s := by
  rw [reSubNG.eq_def, h]

/-- Unfolding: one substitution step at the leftmost matched span. -/
theorem reSubNG_step (sm em repl : List Char) {s pre rest mid post : List Char}
    (h1 : splitAtSub sm s = some (pre, rest))
    (h2 : splitAtSub em rest = some (mid, post))
    (hlt : post.length < s.length) :
    reSubNG sm em repl s = pre ++ repl ++ reSubNG sm em repl post := by
  rw [reSubNG.eq_def, h1]
  simp only [h2, hlt, dif_pos]

/-- One marker-delimited region, present exactly once, is rewritten in
place: everything before the start marker and after the end marker is
preserved byte for byte. -/
theorem reSub_patch (sm em repl : List Char) (hsm : sm ≠ []) (hem : em ≠ [])
    (pre mid post : List Char)
    (h1 : containsSub sm (pre ++ sm.dropLast) = false)
    (h2 : containsSub em (mid ++ em.dropLast) = false)
    (h3 : containsSub sm post = false)
    {s : List Char} (hs : s = pre ++ sm ++ (mid ++ em ++ post)) :
    reSubNG sm em repl s = pre ++ repl ++ post := by
  subst hs
  have e1 : splitAtSub sm (pre ++ sm ++ (mid ++ em ++ post)) =
      some (pre, mid ++ em ++ post) :=
    splitAtSub_exact sm hsm pre (mid ++ em ++ post) h1
  have e2 : splitAtSub em (mid ++ em ++ post) = some (mid, post) :=
    splitAtSub_exact em hem mid post h2
  have hlt : post.length < (pre ++ sm ++ (mid ++ em ++ post)).length := by
    have : 0 < sm.length := List.length_pos.mpr hsm
    simp [List.length_append]
    omega
  rw [reSubNG_step sm em repl e1 e2 hlt,
    reSubNG_none sm em repl post (splitAtSub_none_of_not_contains h3)]

/-! Equivalence of the seen-set loop with the specification pipeline. -/

/-- The inner node loop appends exactly the deduplicated filtered
survivors to `seen` and to the accumulator. -/
theorem processNodes_eq (u : List Char) (nodes : List PullRepo) :
    ∀ seen acc,
      processNodes u nodes seen acc =
        (seen ++ (dedupFrom seen (nodes.filter (keepRepo u))).map
            (fun r => r.nameWithOwner),
         acc ++ (dedupFrom seen (nodes.filter (keepRepo u))).map mkContribution) := by
  induction nodes with
  | nil => intro seen acc; simp [processNodes, dedupFrom]
  | cons r rest ih =>
    intro seen acc
    by_cases h1 : lowerEq r.ownerLogin u = true
    · have hk : keepRepo u r = false := by simp [keepRepo, h1]
      simp [processNodes, h1, List.filter_cons, hk, ih]
    · by_cases h2 : r.stargazerCount < NOTABLE_MIN_STARS
      · have hk : keepRepo u r = false := by
          simp [keepRepo, h1]
          omega
        simp [processNodes, h1, h2, List.filter_cons, hk, ih]
      · have hk : keepRepo u r = true := by
          simp [keepRepo, h1]
          omega
        by_cases h3 : r.nameWithOwner ∈ seen
        · simp [processNodes, h1, h2, h3, List.filter_cons, hk, ih, dedupFrom]
        · simp [processNodes, h1, h2, h3, List.filter_cons, hk, ih, dedupFrom]

/-- Deduplication distributes over appending, the names recorded by the
first part feeding the second. -/
theorem dedupFrom_append (xs : List PullRepo) :
    ∀ (seen : List (List Char)) (ys : List PullRepo),
      dedupFrom seen (xs ++ ys) =
        dedupFrom seen xs ++
          dedupFrom
            (seen ++ (dedupFrom seen xs).map (fun r => r.nameWithOwner)) ys := by
  induction xs with
  | nil => intro seen ys; simp [dedupFrom]
  | cons r rest ih =>
    intro seen ys
    by_cases h : r.nameWithOwner ∈ seen
    · simp [dedupFrom, h, ih]
    · simp [dedupFrom, h, ih]

/-- The pagination loop produces the deduplicated filtered survivors of
all consumed pull-request nodes, appended to the accumulator. -/
theorem notableLoop_eq (pageAt : Nat → PRPage) (u : List Char) :
    ∀ (fuel i : Nat) (seen : List (List Char)) (acc : List Contribution),
      notableLoop pageAt u fuel i seen acc =
        acc ++
          (dedupFrom seen
            ((consumedNodes pageAt fuel i).filter (keepRepo u))).map
            mkContribution := by
  intro fuel
  induction fuel with
  | zero => intro i seen acc; simp [notableLoop, consumedNodes, dedupFrom]
  | succ fuel ih =>
    intro i seen acc
    cases hnp : (pageAt i).hasNextPage
    · simp [notableLoop, consumedNodes, hnp, processNodes_eq]
    · simp [notableLoop, consumedNodes, hnp, processNodes_eq, ih,
        List.filter_append, dedupFrom_append]

/-! ## Theorems -/

/-- C3: on a well-formed finite sequence of repository pages (every page
but the last reports `hasNextPage`, the last does not), `fetch_stars`
returns the sum of the stargazer counts of all repositories on all
pages and issues exactly one page request per page. -/
theorem fetch_stars_spec (pages : List StarPage)
    (hne : pages ≠ [])
    (hnext : ∀ j, j + 1 < pages.length →
      (pages.getD j ⟨[], false⟩).hasNextPage = true)
    (hlast : (pages.getLastD ⟨[], true⟩).hasNextPage = false) :
    fetch_stars pages = (pages.map (fun p => p.counts.sum)).sum ∧
    fetch_stars_requests pages = pages.length := by
  induction pages with
  | nil => exact absurd rfl hne
  | cons p rest ih =>
    cases rest with
    | nil =>
      have h : p.hasNextPage = false := by simpa using hlast
      simp [fetch_stars, fetch_stars_requests, h]
    | cons q rest' =>
      have h0 : p.hasNextPage = true := by
        have := hnext 0 (by simp)
        simpa using this
      have ihnext : ∀ j, j + 1 < (q :: rest').length →
          ((q :: rest').getD j ⟨[], false⟩).hasNextPage = true := by
        intro j hj
        have := hnext (j + 1) (by simpa using Nat.succ_lt_succ hj)
        simpa using this
      have ihlast : ((q :: rest').getLastD ⟨[], true⟩).hasNextPage = false := by
        simpa [List.getLastD] using hlast
      have ih' := ih (by simp) ihnext ihlast
      have e1 : fetch_stars (p :: q :: rest') =
          p.counts.sum + (if p.hasNextPage then fetch_stars (q :: rest') else 0) := rfl
      have e2 : fetch_stars_requests (p :: q :: rest') =
          1 + (if p.hasNextPage then fetch_stars_requests (q :: rest') else 0) := rfl
      constructor
      · rw [e1, h0, if_pos rfl, ih'.1]; simp
      · rw [e2, h0, if_pos rfl, ih'.2]; simp [Nat.add_comm]

/-- Closed instance of `fetch_stars_spec`: 3 pages of star counts
[10, 20], [5], [] with `hasNextPage` flags [true, true, false] sum to 35
with exactly 3 page requests. -/
theorem fetch_stars_spec_witness :
    fetch_stars [⟨[10, 20], true⟩, ⟨[5], true⟩, ⟨[], false⟩] = 35 ∧
    fetch_stars_requests [⟨[10, 20], true⟩, ⟨[5], true⟩, ⟨[], false⟩] = 3 := by
  have h := fetch_stars_spec [⟨[10, 20], true⟩, ⟨[5], true⟩, ⟨[], false⟩]
    (by decide)
    (by
      intro j hj
      match j with
      | 0 => decide
      | 1 => decide
      | n + 2 => exact absurd hj (by simp))
    (by decide)
  exact ⟨h.1.trans (by decide), h.2.trans (by decide)⟩

/-- C2: for 0 ≤ n < 1000, `fmt n` is the plain decimal string of `n`;
for 1000 ≤ n < 1000000 it is `n / 1000` formatted with one decimal
place followed by `"k"`; for n ≥ 1000000 it is `n / 1000000` formatted
with one decimal place followed by `"M"`; in particular
`fmt 999 = "999"`, `fmt 1500 = "1.5k"`, `fmt 2300000 = "2.3M"`. -/
theorem fmt_spec :
    (∀ n : Nat, n < 1000 → fmt n = toString n) ∧
    (∀ n : Nat, 1000 ≤ n → n < 1000000 → fmt n = pyDivFixed1 n THOUSAND ++ "k") ∧
    (∀ n : Nat, 1000000 ≤ n → fmt n = pyDivFixed1 n MILLION ++ "M") ∧
    fmt 999 = "999" ∧ fmt 1500 = "1.5k" ∧ fmt 2300000 = "2.3M" := by
  refine ⟨?_, ?_, ?_, by decide, by decide, by decide⟩
  · intro n h
    have h1 : ¬ n ≥ MILLION := by unfold MILLION; omega
    have h2 : ¬ n ≥ THOUSAND := by unfold THOUSAND; omega
    simp [fmt, h1, h2]
  · intro n hlo hhi
    have h1 : ¬ n ≥ MILLION := by unfold MILLION; omega
    have h2 : n ≥ THOUSAND := by unfold THOUSAND; omega
    simp [fmt, h1, h2]
  · intro n h
    have h1 : n ≥ MILLION := by unfold MILLION; omega
    simp [fmt, h1]

/-- Closed instance of `fmt_spec` at concrete inputs. -/
theorem fmt_spec_witness :
    fmt 500 = "500" ∧ fmt 250000 = "250.0k" ∧ fmt 1000000 = "1.0M" :=
  ⟨(fmt_spec.1 500 (by omega)).trans (by decide),
   (fmt_spec.2.1 250000 (by omega) (by omega)).trans (by decide),
   (fmt_spec.2.2.1 1000000 (by omega)).trans (by decide)⟩

/-- The bounded request counter never exceeds its fuel. -/
theorem notableRequestsAux_le (pageAt : Nat → PRPage) :
    ∀ fuel i, notableRequestsAux pageAt fuel i ≤ fuel := by
  intro fuel
  induction fuel with
  | zero => intro i; simp [notableRequestsAux]
  | succ fuel ih =>
    intro i
    cases h : (pageAt i).hasNextPage
    · simp [notableRequestsAux, h]
    · simp only [notableRequestsAux, h, if_pos]
      have := ih (i + 1)
      omega

/-- When every consumed page reports a next page, the counter spends all
its fuel. -/
theorem notableRequestsAux_all (pageAt : Nat → PRPage) :
    ∀ fuel i, (∀ j, j < fuel → (pageAt (i + j)).hasNextPage = true) →
      notableRequestsAux pageAt fuel i = fuel := by
  intro fuel
  induction fuel with
  | zero => intro i _; simp [notableRequestsAux]
  | succ fuel ih =>
    intro i h
    have h0 : (pageAt i).hasNextPage = true := by simpa using h 0 (by omega)
    have hrec := ih (i + 1) (fun j hj => by
      have := h (j + 1) (by omega)
      simpa [Nat.add_assoc, Nat.add_comm 1 j] using this)
    simp [notableRequestsAux, h0, hrec, Nat.add_comm]

/-- The counter stops on the first page without a next page, having
issued one request per consumed page. -/
theorem notableRequestsAux_first_false (pageAt : Nat → PRPage) :
    ∀ fuel i k, k < fuel → (pageAt (i + k)).hasNextPage = false →
      (∀ j, j < k → (pageAt (i + j)).hasNextPage = true) →
      notableRequestsAux pageAt fuel i = k + 1 := by
  intro fuel
  induction fuel with
  | zero => intro i k hk; omega
  | succ fuel ih =>
    intro i k hk hfalse htrue
    cases k with
    | zero =>
      have h0 : (pageAt i).hasNextPage = false := by simpa using hfalse
      simp [notableRequestsAux, h0]
    | succ k =>
      have h0 : (pageAt i).hasNextPage = true := by simpa using htrue 0 (by omega)
      have hrec := ih (i + 1) k (by omega)
        (by
          have := hfalse
          simpa [Nat.add_assoc, Nat.add_comm 1 k] using this)
        (fun j hj => by
          have := htrue (j + 1) (by omega)
          simpa [Nat.add_assoc, Nat.add_comm 1 j] using this)
      simp [notableRequestsAux, h0, hrec, Nat.add_comm]

/-- C1: `fetch_notable_contributions` returns exactly the survivors of
the specification's filter pipeline — self-owned target repositories
skipped, star counts below `NOTABLE_MIN_STARS` skipped, repeated
repository names skipped keeping the first (newest-first) occurrence —
sorted by star count descending and truncated to the top
`NOTABLE_LIMIT`; in particular, for PRs against repositories with stars
[50, 150, 300, 150] owned by [self, other, other, other], the result
excludes the self-owned 50-star repository and is sorted descending by
stars. -/
theorem fetch_notable_contributions_spec :
    (∀ (pageAt : Nat → PRPage) (username : List Char),
        fetch_notable_contributions pageAt username = specNotable pageAt username) ∧
    fetch_notable_contributions
        (fun _ =>
          ⟨[⟨"self/a".toList, "ua".toList, 50, "self".toList⟩,
            ⟨"oo/b".toList, "ub".toList, 150, "oo".toList⟩,
            ⟨"oo/c".toList, "uc".toList, 300, "oo".toList⟩,
            ⟨"oo/d".toList, "ud".toList, 150, "oo".toList⟩], false⟩)
        "self".toList =
      [⟨"oo/c".toList, "uc".toList, 300⟩, ⟨"oo/b".toList, "ub".toList, 150⟩,
       ⟨"oo/d".toList, "ud".toList, 150⟩] := by
  constructor
  · intro pageAt username
    unfold fetch_notable_contributions specNotable
    rw [notableLoop_eq]
    simp
  · decide

/-- C9: the notable-contributions pagination loop always terminates (it
is a total function of the page stream), issues at most
`NOTABLE_MAX_PAGES` page requests — exactly `NOTABLE_MAX_PAGES` when
every page reports `hasNextPage` — and stops on the first page whose
`hasNextPage` is false, having issued one request per consumed page. -/
theorem notableRequests_spec (pageAt : Nat → PRPage) :
    notableRequests pageAt ≤ NOTABLE_MAX_PAGES ∧
    ((∀ i, i < NOTABLE_MAX_PAGES → (pageAt i).hasNextPage = true) →
      notableRequests pageAt = NOTABLE_MAX_PAGES) ∧
    (∀ k, k < NOTABLE_MAX_PAGES → (pageAt k).hasNextPage = false →
      (∀ j, j < k → (pageAt j).hasNextPage = true) →
      notableRequests pageAt = k + 1) := by
  refine ⟨notableRequestsAux_le pageAt NOTABLE_MAX_PAGES 0, ?_, ?_⟩
  · intro h
    exact notableRequestsAux_all pageAt NOTABLE_MAX_PAGES 0
      (fun j hj => by simpa using h j hj)
  · intro k hk hfalse htrue
    exact notableRequestsAux_first_false pageAt NOTABLE_MAX_PAGES 0 k hk
      (by simpa using hfalse) (fun j hj => by simpa using htrue j hj)

/-- Closed instance of `notableRequests_spec`: an endless page stream
costs exactly 5 requests, a stream whose second page is last costs 2. -/
theorem notableRequests_spec_witness :
    notableRequests (fun _ => ⟨[], true⟩) = 5 ∧
    notableRequests (fun i => ⟨[], decide (i = 0)⟩) = 2 := by
  constructor
  · exact (notableRequests_spec (fun _ => ⟨[], true⟩)).2.1 (fun i _ => rfl)
  · exact (notableRequests_spec (fun i => ⟨[], decide (i = 0)⟩)).2.2 1
      (by decide) (by decide)
      (by
        intro j hj
        match j with
        | 0 => decide)

/-- C8: `set_fork_name` issues no rename call when the repository name
already starts with `"fork-"`, and issues exactly one rename call, to
`"fork-" ++ name`, when it does not; in particular `fork-x` triggers no
rename and `x` triggers exactly one rename to `fork-x`. -/
theorem set_fork_name_spec :
    (∀ r : List Char, forkNamePrefix.isPrefixOf r = true → set_fork_name r = []) ∧
    (∀ r : List Char, forkNamePrefix.isPrefixOf r = false →
      set_fork_name r = [(r, forkNamePrefix ++ r)]) ∧
    set_fork_name "fork-x".toList = [] ∧
    set_fork_name "x".toList = [("x".toList, "fork-x".toList)] := by
  refine ⟨?_, ?_, by decide, by decide⟩
  · intro r h; simp [set_fork_name, h]
  · intro r h; simp [set_fork_name, h]

/-- Closed instance of `set_fork_name_spec` at concrete inputs. -/
theorem set_fork_name_spec_witness :
    set_fork_name "fork-y".toList = [] ∧
    set_fork_name "y".toList = [("y".toList, "fork-y".toList)] :=
  ⟨set_fork_name_spec.1 "fork-y".toList (by decide),
   (set_fork_name_spec.2.1 "y".toList (by decide)).trans (by decide)⟩

/-- C10: `set_fork_name` is idempotent: for a repository name without
the `"fork-"` prefix it renames to `"fork-" ++ name`, and the assigned
name starts with `"fork-"`, so a second application issues no rename and
no `fork-fork-` name can ever be produced. -/
theorem set_fork_name_idem (r : List Char)
    (h : forkNamePrefix.isPrefixOf r = false) :
    set_fork_name r = [(r, forkNamePrefix ++ r)] ∧
    set_fork_name (forkNamePrefix ++ r) = [] := by
  constructor
  · simp [set_fork_name, h]
  · simp [set_fork_name, isPrefixOf_append_self]

/-- Closed instance of `set_fork_name_idem` at a concrete input. -/
theorem set_fork_name_idem_witness :
    set_fork_name "z".toList = [("z".toList, "fork-z".toList)] ∧
    set_fork_name ("fork-z".toList) = [] := by
  have h := set_fork_name_idem "z".toList (by decide)
  exact ⟨h.1.trans (by decide), by
    have h2 := h.2
    simpa using h2⟩

/-- C4: `update_readme` rewrites only the three marker-delimited spans:
on a README whose three marker pairs each occur exactly once (the
non-occurrence hypotheses say the start markers occur nowhere earlier,
the end markers do not occur inside their region, and no marker recurs
later), the text outside the spans — `a`, `b`, `c`, `d` — is
byte-identical before and after, regions may span multiple lines, and
each span becomes the new fragment wrapped in its marker pair. -/
theorem update_readme_frame
    (a m1 b m2 c m3 d f1 f2 f3 : List Char)
    (hS1 : containsSub statsStartMarker (a ++ statsStartMarker.dropLast) = false)
    (hS2 : containsSub statsEndMarker (m1 ++ statsEndMarker.dropLast) = false)
    (hS3 : containsSub statsStartMarker
      (b ++ notableStartMarker ++ m2 ++ notableEndMarker ++ c ++
        updatedStartMarker ++ m3 ++ updatedEndMarker ++ d) = false)
    (hN1 : containsSub notableStartMarker
      (a ++ wrapMarkers statsStartMarker statsEndMarker f1 ++ b ++
        notableStartMarker.dropLast) = false)
    (hN2 : containsSub notableEndMarker (m2 ++ notableEndMarker.dropLast) = false)
    (hN3 : containsSub notableStartMarker
      (c ++ updatedStartMarker ++ m3 ++ updatedEndMarker ++ d) = false)
    (hU1 : containsSub updatedStartMarker
      (a ++ wrapMarkers statsStartMarker statsEndMarker f1 ++ b ++
        wrapMarkers notableStartMarker notableEndMarker f2 ++ c ++
        updatedStartMarker.dropLast) = false)
    (hU2 : containsSub updatedEndMarker (m3 ++ updatedEndMarker.dropLast) = false)
    (hU3 : containsSub updatedStartMarker d = false) :
    update_readme
        (a ++ statsStartMarker ++ m1 ++ statsEndMarker ++ b ++
          notableStartMarker ++ m2 ++ notableEndMarker ++ c ++
          updatedStartMarker ++ m3 ++ updatedEndMarker ++ d)
        f1 f2 f3 =
      a ++ wrapMarkers statsStartMarker statsEndMarker f1 ++ b ++
        wrapMarkers notableStartMarker notableEndMarker f2 ++ c ++
        wrapMarkers updatedStartMarker updatedEndMarker f3 ++ d := by
  have hs1 : a ++ statsStartMarker ++ m1 ++ statsEndMarker ++ b ++
      notableStartMarker ++ m2 ++ notableEndMarker ++ c ++
      updatedStartMarker ++ m3 ++ updatedEndMarker ++ d =
      a ++ statsStartMarker ++
        (m1 ++ statsEndMarker ++
          (b ++ notableStartMarker ++ m2 ++ notableEndMarker ++ c ++
            updatedStartMarker ++ m3 ++ updatedEndMarker ++ d)) := by
    simp [List.append_assoc]
  have hs2 : a ++ wrapMarkers statsStartMarker statsEndMarker f1 ++
      (b ++ notableStartMarker ++ m2 ++ notableEndMarker ++ c ++
        updatedStartMarker ++ m3 ++ updatedEndMarker ++ d) =
      (a ++ wrapMarkers statsStartMarker statsEndMarker f1 ++ b) ++
        notableStartMarker ++
        (m2 ++ notableEndMarker ++
          (c ++ updatedStartMarker ++ m3 ++ updatedEndMarker ++ d)) := by
    simp [List.append_assoc]
  have hs3 : (a ++ wrapMarkers statsStartMarker statsEndMarker f1 ++ b) ++
      wrapMarkers notableStartMarker notableEndMarker f2 ++
      (c ++ updatedStartMarker ++ m3 ++ updatedEndMarker ++ d) =
      (a ++ wrapMarkers statsStartMarker statsEndMarker f1 ++ b ++
        wrapMarkers notableStartMarker notableEndMarker f2 ++ c) ++
        updatedStartMarker ++ (m3 ++ updatedEndMarker ++ d) := by
    simp [List.append_assoc]
  unfold update_readme
  rw [reSub_patch statsStartMarker statsEndMarker
    (wrapMarkers statsStartMarker statsEndMarker f1) (by decide) (by decide)
    _ _ _ hS1 hS2 hS3 hs1]
  rw [reSub_patch notableStartMarker notableEndMarker
    (wrapMarkers notableStartMarker notableEndMarker f2) (by decide) (by decide)
    _ _ _ hN1 hN2 hN3 hs2]
  rw [reSub_patch updatedStartMarker updatedEndMarker
    (wrapMarkers updatedStartMarker updatedEndMarker f3) (by decide) (by decide)
    _ _ _ hU1 hU2 hU3 hs3]

/-- Closed instance of `update_readme_frame` on a concrete README. -/
theorem update_readme_frame_witness :
    update_readme
        ("# T\n<!-- STATS:START -->old1<!-- STATS:END -->\nA\n<!-- NOTABLE:START -->old2<!-- NOTABLE:END -->\nB\n<!-- UPDATED:START -->old3<!-- UPDATED:END -->\nC").toList
        "S1".toList "N1".toList "U1".toList =
      ("# T\n<!-- STATS:START -->\nS1\n<!-- STATS:END -->\nA\n<!-- NOTABLE:START -->\nN1\n<!-- NOTABLE:END -->\nB\n<!-- UPDATED:START -->\nU1\n<!-- UPDATED:END -->\nC").toList := by
  have h := update_readme_frame "# T\n".toList "old1".toList "\nA\n".toList
    "old2".toList "\nB\n".toList "old3".toList "\nC".toList
    "S1".toList "N1".toList "U1".toList
    (by decide) (by decide) (by decide) (by decide) (by decide) (by decide)
    (by decide) (by decide) (by decide)
  rw [show ("# T\n<!-- STATS:START -->old1<!-- STATS:END -->\nA\n<!-- NOTABLE:START -->old2<!-- NOTABLE:END -->\nB\n<!-- UPDATED:START -->old3<!-- UPDATED:END -->\nC").toList =
      "# T\n".toList ++ statsStartMarker ++ "old1".toList ++ statsEndMarker ++
        "\nA\n".toList ++ notableStartMarker ++ "old2".toList ++
        notableEndMarker ++ "\nB\n".toList ++ updatedStartMarker ++
        "old3".toList ++ updatedEndMarker ++ "\nC".toList from by decide]
  rw [h]
  decide

/-- C5: repatching a region fully replaces its prior content: patching
with `f1` and then with `f2` yields, between the markers, exactly what a
single direct patch with `f2` yields — and that is `f2` wrapped in the
marker pair, with no accumulation of `f1`. -/
theorem reSub_repatch (sm em f1 f2 pre mid post : List Char)
    (hsm : sm ≠ []) (hem : em ≠ [])
    (h1 : containsSub sm (pre ++ sm.dropLast) = false)
    (h2 : containsSub em (mid ++ em.dropLast) = false)
    (h3 : containsSub sm post = false)
    (h4 : containsSub em ((['\n'] ++ f1 ++ ['\n']) ++ em.dropLast) = false) :
    reSubNG sm em (wrapMarkers sm em f2)
        (reSubNG sm em (wrapMarkers sm em f1) (pre ++ sm ++ (mid ++ em ++ post))) =
      reSubNG sm em (wrapMarkers sm em f2) (pre ++ sm ++ (mid ++ em ++ post)) ∧
    reSubNG sm em (wrapMarkers sm em f2) (pre ++ sm ++ (mid ++ em ++ post)) =
      pre ++ wrapMarkers sm em f2 ++ post := by
  have direct := reSub_patch sm em (wrapMarkers sm em f2) hsm hem
    pre mid post h1 h2 h3 rfl
  have first := reSub_patch sm em (wrapMarkers sm em f1) hsm hem
    pre mid post h1 h2 h3 rfl
  have hs' : pre ++ wrapMarkers sm em f1 ++ post =
      pre ++ sm ++ ((['\n'] ++ f1 ++ ['\n']) ++ em ++ post) := by
    simp [wrapMarkers, List.append_assoc]
  have second := reSub_patch sm em (wrapMarkers sm em f2) hsm hem
    pre (['\n'] ++ f1 ++ ['\n']) post h1 h4 h3 hs'
  exact ⟨by rw [first, second, direct], direct⟩

/-- Closed instance of `reSub_repatch` on the STATS marker pair. -/
theorem reSub_repatch_witness :
    reSubNG statsStartMarker statsEndMarker
        (wrapMarkers statsStartMarker statsEndMarker "new2".toList)
        (reSubNG statsStartMarker statsEndMarker
          (wrapMarkers statsStartMarker statsEndMarker "new1".toList)
          ("pre<!-- STATS:START -->old<!-- STATS:END -->post").toList) =
      ("pre<!-- STATS:START -->\nnew2\n<!-- STATS:END -->post").toList := by
  have h := reSub_repatch statsStartMarker statsEndMarker
    "new1".toList "new2".toList "pre".toList "old".toList "post".toList
    (by decide) (by decide) (by decide) (by decide) (by decide) (by decide)
  rw [show ("pre<!-- STATS:START -->old<!-- STATS:END -->post").toList =
      "pre".toList ++ statsStartMarker ++
        ("old".toList ++ statsEndMarker ++ "post".toList) from by decide]
  rw [h.1, h.2]
  decide

/-- C6: a README without a given marker pair is left unchanged in that
region and causes no error: `re.sub` with an absent start marker is the
identity (first conjunct, for any marker pair), and `update_readme` on a
README lacking the STATS pair still patches the NOTABLE and UPDATED
regions normally while preserving all other text (second conjunct). -/
theorem update_readme_missing_pair
    (a m2 b m3 c f1 f2 f3 : List Char)
    (h0 : containsSub statsStartMarker
      (a ++ notableStartMarker ++ m2 ++ notableEndMarker ++ b ++
        updatedStartMarker ++ m3 ++ updatedEndMarker ++ c) = false)
    (hN1 : containsSub notableStartMarker (a ++ notableStartMarker.dropLast) = false)
    (hN2 : containsSub notableEndMarker (m2 ++ notableEndMarker.dropLast) = false)
    (hN3 : containsSub notableStartMarker
      (b ++ updatedStartMarker ++ m3 ++ updatedEndMarker ++ c) = false)
    (hU1 : containsSub updatedStartMarker
      (a ++ wrapMarkers notableStartMarker notableEndMarker f2 ++ b ++
        updatedStartMarker.dropLast) = false)
    (hU2 : containsSub updatedEndMarker (m3 ++ updatedEndMarker.dropLast) = false)
    (hU3 : containsSub updatedStartMarker c = false) :
    (∀ sm em repl s, containsSub sm s = false → reSubNG sm em repl s = s) ∧
    update_readme
        (a ++ notableStartMarker ++ m2 ++ notableEndMarker ++ b ++
          updatedStartMarker ++ m3 ++ updatedEndMarker ++ c)
        f1 f2 f3 =
      a ++ wrapMarkers notableStartMarker notableEndMarker f2 ++ b ++
        wrapMarkers updatedStartMarker updatedEndMarker f3 ++ c := by
  constructor
  · intro sm em repl s hc
    exact reSubNG_none sm em repl s (splitAtSub_none_of_not_contains hc)
  · have hsN : a ++ notableStartMarker ++ m2 ++ notableEndMarker ++ b ++
        updatedStartMarker ++ m3 ++ updatedEndMarker ++ c =
        a ++ notableStartMarker ++
          (m2 ++ notableEndMarker ++
            (b ++ updatedStartMarker ++ m3 ++ updatedEndMarker ++ c)) := by
      simp [List.append_assoc]
    have hsU : a ++ wrapMarkers notableStartMarker notableEndMarker f2 ++
        (b ++ updatedStartMarker ++ m3 ++ updatedEndMarker ++ c) =
        (a ++ wrapMarkers notableStartMarker notableEndMarker f2 ++ b) ++
          updatedStartMarker ++ (m3 ++ updatedEndMarker ++ c) := by
      simp [List.append_assoc]
    unfold update_readme
    rw [reSubNG_none _ _ _ _ (splitAtSub_none_of_not_contains h0)]
    rw [reSub_patch notableStartMarker notableEndMarker
      (wrapMarkers notableStartMarker notableEndMarker f2) (by decide) (by decide)
      _ _ _ hN1 hN2 hN3 hsN]
    rw [reSub_patch updatedStartMarker updatedEndMarker
      (wrapMarkers updatedStartMarker updatedEndMarker f3) (by decide) (by decide)
      _ _ _ hU1 hU2 hU3 hsU]

/-- Closed instance of `update_readme_missing_pair`: no STATS pair in
the README, the other two regions patched, everything else intact. -/
theorem update_readme_missing_pair_witness :
    update_readme
        ("head\n<!-- NOTABLE:START -->x<!-- NOTABLE:END -->\nmid\n<!-- UPDATED:START -->y<!-- UPDATED:END -->\ntail").toList
        "S1".toList "N1".toList "U1".toList =
      ("head\n<!-- NOTABLE:START -->\nN1\n<!-- NOTABLE:END -->\nmid\n<!-- UPDATED:START -->\nU1\n<!-- UPDATED:END -->\ntail").toList := by
  have h := update_readme_missing_pair "head\n".toList "x".toList "\nmid\n".toList
    "y".toList "\ntail".toList "S1".toList "N1".toList "U1".toList
    (by decide) (by decide) (by decide) (by decide) (by decide) (by decide)
    (by decide)
  rw [show ("head\n<!-- NOTABLE:START -->x<!-- NOTABLE:END -->\nmid\n<!-- UPDATED:START -->y<!-- UPDATED:END -->\ntail").toList =
      "head\n".toList ++ notableStartMarker ++ "x".toList ++ notableEndMarker ++
        "\nmid\n".toList ++ updatedStartMarker ++ "y".toList ++
        updatedEndMarker ++ "\ntail".toList from by decide]
  rw [h.2]
  decide

/-- C7 counterexample: the claim "graphql raises an error if and only if
the HTTP response is non-success or the response JSON contains a
top-level `errors` field" is false at the concrete success response with
status 200 and body `{}`: neither side of the claimed iff holds, yet the
code raises (`data["data"]` is a `KeyError`). -/
theorem graphql_iff_cex :
    is_success 200 = true ∧
    (⟨200, none, none⟩ : GraphQLResponse Nat).errors = none ∧
    graphql (⟨200, none, none⟩ : GraphQLResponse Nat) =
      Except.error "KeyError" := by
  refine ⟨by decide, rfl, ?_⟩
  rfl

/-- C7 (amended): `graphql` raises an error (returning no data) if and
only if the HTTP response is non-success, or the response JSON contains
a top-level `errors` field, or the success-path subscript finds no
`data` field; a body carrying `errors` fails regardless of HTTP status,
and on a success response with no `errors` and a `data` field present,
`graphql` returns the value of the `data` field. -/
theorem graphql_spec {α : Type} (r : GraphQLResponse α) :
    ((∃ e, graphql r = Except.error e) ↔
      (is_success r.status = false ∨ r.errors.isSome = true ∨
        r.data.isNone = true)) ∧
    (r.errors.isSome = true → ∃ e, graphql r = Except.error e) ∧
    (∀ d, is_success r.status = true → r.errors = none → r.data = some d →
      graphql r = Except.ok d) := by
  obtain ⟨st, errs, dat⟩ := r
  refine ⟨?_, ?_, ?_⟩
  · cases hsucc : is_success st
    · simp [graphql, hsucc]
    · cases errs with
      | some es => simp [graphql, hsucc]
      | none =>
        cases dat with
        | some d => simp [graphql, hsucc]
        | none => simp [graphql, hsucc]
  · intro herr
    cases hsucc : is_success st
    · exact ⟨"HTTPStatusError", by simp [graphql, hsucc]⟩
    · exact ⟨"GraphQL errors", by simp [graphql, hsucc, herr]⟩
  · intro d hsucc herr hdat
    subst herr
    subst hdat
    simp [graphql, hsucc]

/-- Closed instance of `graphql_spec` at concrete responses. -/
theorem graphql_spec_witness :
    graphql (⟨200, none, some 5⟩ : GraphQLResponse Nat) = Except.ok 5 ∧
    (∃ e, graphql (⟨201, some ["boom"], some 5⟩ : GraphQLResponse Nat) =
      Except.error e) ∧
    (∃ e, graphql (⟨500, none, some 5⟩ : GraphQLResponse Nat) =
      Except.error e) :=
  ⟨(graphql_spec (⟨200, none, some 5⟩ : GraphQLResponse Nat)).2.2 5
      (by decide) rfl rfl,
   (graphql_spec (⟨201, some ["boom"], some 5⟩ : GraphQLResponse Nat)).2.1 rfl,
   (graphql_spec (⟨500, none, some 5⟩ : GraphQLResponse Nat)).1.mpr
      (Or.inl (by decide))⟩

end Spec2Proof
